import Mathlib

/-!
Verification of `scripts/generate-icons.py`, a small icon generator.

The script is embedded shallowly:
* pixels are `RGBA` records of natural channel values; an image is its
  dimensions together with a total pixel function;
* the Pillow calls are modelled at their documented semantics: `Image.new`
  is a constant image, `draw.text` alpha-blends a glyph coverage function
  onto the canvas, `rounded_rectangle`/`paste` with an "L" mask keeps the
  pixels inside the rounded-rectangle region and clears the rest;
* fonts are opaque records giving a text bounding box and a coverage
  function, and `ImageFont.truetype` is an environment function that may
  fail (returning `none`, the `except` branch of the script);
* the filesystem is an explicit state: a list of existing directories and
  a partial map from paths to images; `os.path.exists` is an environment
  predicate on paths.
-/

/-- A pixel with red, green, blue and alpha channels (0..255). -/
structure RGBA where
  r : Nat
  g : Nat
  b : Nat
  a : Nat
  deriving Repr, DecidableEq

/-- An image: fixed dimensions and a total pixel function.  Only the values
at coordinates below the dimensions are meaningful. -/
structure Img where
  width : Nat
  height : Nat
  pix : Nat → Nat → RGBA

/-- A loaded font: `bbox s` models `draw.textbbox((0,0), s, font=font)` as
`(left, top, right, bottom)`, and `cov s dx dy` models the glyph coverage
(0..255) of string `s` at offset `(dx, dy)` from the draw position. -/
structure Font where
  bbox : String → Int × Int × Int × Int
  cov : String → Int → Int → Nat

/-- KANJI constant of the script ("視"). -/
def KANJI : String := "視"

/-- BACKGROUND_COLOR constant of the script (blue-500). -/
def BACKGROUND_COLOR : Nat × Nat × Nat := (59, 130, 246)

/-- TEXT_COLOR constant of the script (white). -/
def TEXT_COLOR : Nat × Nat × Nat := (255, 255, 255)

/-- SIZES constant of the script. -/
def SIZES : List Nat := [16, 48, 128]

/-- The candidate font paths of `find_font`, in source order. -/
def font_paths : List String :=
  [ "/System/Library/Fonts/ヒラギノ角ゴシック W6.ttc",
    "/System/Library/Fonts/Hiragino Sans GB.ttc",
    "/Library/Fonts/Arial Unicode.ttf",
    "/System/Library/Fonts/Supplemental/Arial Unicode.ttf",
    "/usr/share/fonts/noto-cjk/NotoSansCJK-Regular.ttc",
    "/usr/share/fonts/google-noto-cjk/NotoSansCJK-Regular.ttc",
    "/usr/share/fonts/opentype/noto/NotoSansCJK-Regular.ttc",
    "C:\\Windows\\Fonts\\msgothic.ttc",
    "C:\\Windows\\Fonts\\meiryo.ttc",
    "C:\\Windows\\Fonts\\YuGothM.ttc" ]

/-- The message of the `FileNotFoundError` raised by `find_font`. -/
def font_err_msg : String :=
  "No Japanese font found. Install a CJK font like Noto Sans CJK."

/-- The `for path in font_paths: if os.path.exists(path): return path` loop,
parameterised over the existence predicate `ex`. -/
def find_first_existing (ex : String → Bool) : List String → Option String
  | [] => none
  | p :: rest => if ex p then some p else find_first_existing ex rest

/-- `find_font`: first existing candidate path, or the `FileNotFoundError`. -/
def find_font (ex : String → Bool) : Except String String :=
  match find_first_existing ex font_paths with
  | some p => Except.ok p
  | none => Except.error font_err_msg

/-- `font_size = int(size * 0.65)`: truncation of the exact product. -/
def font_size (size : Nat) : Nat := 65 * size / 100

/-- The warning printed when `ImageFont.truetype` fails. -/
def font_warning (n : Nat) : String :=
  "Warning: Could not load font at size " ++ toString n

/-- `Image.new("RGBA", (size, size), BACKGROUND_COLOR + (255,))`. -/
def base_canvas (size : Nat) : Img :=
  ⟨size, size, fun _ _ =>
    ⟨BACKGROUND_COLOR.1, BACKGROUND_COLOR.2.1, BACKGROUND_COLOR.2.2, 255⟩⟩

/-- One channel of Pillow's coverage blend: with coverage `c ≤ 255`, the new
channel value is `(bg * (255 - c) + ink * c) / 255`. -/
def blend (bg ink c : Nat) : Nat := (bg * (255 - c) + ink * c) / 255

/-- `draw.text(pos, s, fill=fill, font=font)` on an RGBA image: each pixel is
blended with the ink (whose alpha is 255, since the fill is an RGB triple)
according to the glyph coverage at that pixel. -/
def draw_text (img : Img) (pos : Int × Int) (s : String)
    (fill : Nat × Nat × Nat) (font : Font) : Img :=
  ⟨img.width, img.height, fun xx yy =>
    let c := min (font.cov s ((xx : Int) - pos.1) ((yy : Int) - pos.2)) 255
    let p := img.pix xx yy
    ⟨blend p.r fill.1 c, blend p.g fill.2.1 c, blend p.b fill.2.2 c,
     blend p.a 255 c⟩⟩

/-- Lines 60–66 of the script: the centering offset computed from the text
bounding box `(left, top, right, bottom)`, with Python floor division. -/
def center_xy (size : Nat) (bbox : Int × Int × Int × Int) : Int × Int :=
  let text_width := bbox.2.2.1 - bbox.1
  let text_height := bbox.2.2.2 - bbox.2.1
  (Int.fdiv ((size : Int) - text_width) 2 - bbox.1,
   Int.fdiv ((size : Int) - text_height) 2 - bbox.2.1)

/-- Membership in the rounded-rectangle drawn by
`rounded_rectangle([(0,0),(size-1,size-1)], radius, fill=255)`: the pixel is
inside the canvas rectangle and, in each corner square of side `radius`,
inside the quarter disc of that corner. -/
def in_rounded_rect (size radius : Nat) (x y : Nat) : Prop :=
  let s : Int := size
  let r : Int := radius
  let ξ : Int := x
  let η : Int := y
  ξ ≤ s - 1 ∧ η ≤ s - 1 ∧
  (ξ < r → η < r → (ξ - r) ^ 2 + (η - r) ^ 2 ≤ r ^ 2) ∧
  (s - 1 - r < ξ → η < r → (ξ - (s - 1 - r)) ^ 2 + (η - r) ^ 2 ≤ r ^ 2) ∧
  (ξ < r → s - 1 - r < η → (ξ - r) ^ 2 + (η - (s - 1 - r)) ^ 2 ≤ r ^ 2) ∧
  (s - 1 - r < ξ → s - 1 - r < η →
    (ξ - (s - 1 - r)) ^ 2 + (η - (s - 1 - r)) ^ 2 ≤ r ^ 2)

instance (size radius x y : Nat) : Decidable (in_rounded_rect size radius x y) := by
  unfold in_rounded_rect
  exact inferInstance

/-- Lines 72–84 of the script: build the mask with `radius = size // 6` and
paste the canvas onto a fully transparent image through it.  A pixel where
the binary mask is 255 keeps the canvas pixel; elsewhere the transparent
background `(0,0,0,0)` remains. -/
def apply_mask (size : Nat) (img : Img) : Img :=
  let radius := size / 6
  ⟨size, size, fun x y =>
    if in_rounded_rect size radius x y then img.pix x y else ⟨0, 0, 0, 0⟩⟩

/-- The canvas after background fill, bbox measurement, centering and
`draw.text`, for a given loaded font. -/
def draw_canvas (size : Nat) (kanji : String) (font : Font) : Img :=
  let img := base_canvas size
  let bbox := font.bbox kanji
  let xy := center_xy size bbox
  draw_text img xy kanji TEXT_COLOR font

/-- The tail of `generate_icon` once the font variable is bound: draw the
glyph, and round the corners when `size >= 48`. -/
def render_with_font (size : Nat) (kanji : String) (font : Font) : Img :=
  let img2 := draw_canvas size kanji font
  if 48 ≤ size then apply_mask size img2 else img2

/-- `generate_icon(size, kanji, font_path)`, parameterised over the library
functions: `truetype` models `ImageFont.truetype` (`none` = raises) and
`default_font` models `ImageFont.load_default()`.  Returns the image and the
list of warnings printed. -/
def generate_icon (size : Nat) (kanji : String)
    (truetype : String → Nat → Option Font) (default_font : Font)
    (font_path : String) : Img × List String :=
  let fsz := font_size size
  match truetype font_path fsz with
  | some font => (render_with_font size kanji font, [])
  | none => (render_with_font size kanji default_font, [font_warning fsz])

/-- The filesystem state: existing directories and a map from file paths to
written images. -/
@[ext] structure FS where
  dirs : List String
  files : String → Option Img

/-- `os.makedirs(d, exist_ok=True)`. -/
def makedirs (d : String) (fs : FS) : FS :=
  ⟨if d ∈ fs.dirs then fs.dirs else fs.dirs ++ [d], fs.files⟩

/-- `icon.save(path, "PNG")`: record the image at the path, overwriting. -/
def save_file (path : String) (img : Img) (fs : FS) : FS :=
  ⟨fs.dirs, fun p => if p = path then some img else fs.files p⟩

/-- The ambient environment of one run: the filesystem-existence predicate,
the two font-library entry points, and the directory of the script
(`os.path.dirname(__file__)`). -/
structure Env where
  ex : String → Bool
  truetype : String → Nat → Option Font
  default_font : Font
  scriptDir : String

/-- `OUTPUT_DIR = os.path.join(os.path.dirname(__file__), "..", "icons")`. -/
def OUTPUT_DIR (scriptDir : String) : String :=
  scriptDir ++ "/" ++ ".." ++ "/" ++ "icons"

/-- `os.path.join(OUTPUT_DIR, f"icon{size}.png")`. -/
def icon_path (scriptDir : String) (size : Nat) : String :=
  OUTPUT_DIR scriptDir ++ "/" ++ ("icon" ++ toString size ++ ".png")

/-- `main()`: create the output directory, locate a font (exit 1 when none
exists), then render and save one icon per size and exit 0.  Returns the
exit status and the new filesystem state. -/
def run (env : Env) (fs : FS) : Nat × FS :=
  let fs1 := makedirs (OUTPUT_DIR env.scriptDir) fs
  match find_font env.ex with
  | Except.error _ => (1, fs1)
  | Except.ok font_path =>
      let fs2 := SIZES.foldl (fun acc size =>
        save_file (icon_path env.scriptDir size)
          (generate_icon size KANJI env.truetype env.default_font font_path).1
          acc) fs1
      (0, fs2)

-- A first smoke check that the embedding computes.
example : find_font (fun _ => false) = Except.error font_err_msg := by rfl
example : find_font (fun _ => true) =
    Except.ok "/System/Library/Fonts/ヒラギノ角ゴシック W6.ttc" := by rfl
example : font_size 48 = 31 := by rfl
example : center_xy 16 (1, 2, 11, 14) = (2, 0) := by rfl

/-! ### Helper lemmas about the font search -/

lemma find_first_existing_eq_none_iff (ex : String → Bool) (paths : List String) :
    find_first_existing ex paths = none ↔ ∀ p ∈ paths, ex p = false := by
  induction paths with
  | nil => simp [find_first_existing]
  | cons h t ih =>
      by_cases hh : ex h
      · rw [find_first_existing, if_pos hh]
        simp only [List.mem_cons]
        constructor
        · intro hc; exact absurd hc (Option.some_ne_none h)
        · intro hall
          exact absurd hh (by simp [hall h (Or.inl rfl)])
      · rw [find_first_existing, if_neg hh, ih]
        simp only [List.mem_cons]
        constructor
        · intro hall p hp
          rcases hp with rfl | hp
          · exact Bool.eq_false_iff.mpr hh
          · exact hall p hp
        · intro hall p hp; exact hall p (Or.inr hp)

lemma find_first_existing_some (ex : String → Bool) :
    ∀ (paths : List String) (p : String), find_first_existing ex paths = some p →
      ex p = true ∧ ∃ i, ∃ hi : i < paths.length, paths.get ⟨i, hi⟩ = p ∧
        ∀ j, ∀ hj : j < i, ex (paths.get ⟨j, Nat.lt_trans hj hi⟩) = false := by
  intro paths
  induction paths with
  | nil => intro p hp; simp [find_first_existing] at hp
  | cons h t ih =>
      intro p hp
      by_cases hh : ex h
      · simp [find_first_existing, hh] at hp
        subst hp
        exact ⟨hh, 0, Nat.succ_pos _, rfl, fun j hj => absurd hj (Nat.not_lt_zero j)⟩
      · simp [find_first_existing, hh] at hp
        obtain ⟨hex, i, hi, hget, hprev⟩ := ih p hp
        refine ⟨hex, i + 1, Nat.succ_lt_succ hi, hget, ?_⟩
        intro j hj
        match j with
        | 0 => simpa using hh
        | j + 1 => exact hprev j (Nat.lt_of_succ_lt_succ hj)

/-! ### Claim theorems -/

/-- C2: the font locator returns the first path in the list that the
existence predicate accepts, and produces the `FileNotFoundError` message
exactly when no path in the list exists. -/
theorem find_font_first_existing (ex : String → Bool) :
    (∀ (paths : List String) (p : String),
        find_first_existing ex paths = some p →
          ex p = true ∧ ∃ i, ∃ hi : i < paths.length, paths.get ⟨i, hi⟩ = p ∧
            ∀ j, ∀ hj : j < i, ex (paths.get ⟨j, Nat.lt_trans hj hi⟩) = false)
  ∧ (∀ paths : List String,
        find_first_existing ex paths = none ↔ ∀ p ∈ paths, ex p = false)
  ∧ (∀ p, find_font ex = Except.ok p ↔ find_first_existing ex font_paths = some p)
  ∧ (find_font ex = Except.error font_err_msg ↔ ∀ p ∈ font_paths, ex p = false) := by
  refine ⟨find_first_existing_some ex, find_first_existing_eq_none_iff ex, ?_, ?_⟩
  · intro p
    unfold find_font
    cases hf : find_first_existing ex font_paths with
    | none => simp
    | some q => simp
  · rw [← find_first_existing_eq_none_iff]
    unfold find_font
    cases hf : find_first_existing ex font_paths with
    | none => simp
    | some q => simp

/-- C2 witness: on the concrete list `["a", "b"]` with only `"b"` existing,
the search returns `"b"`, which exists. -/
theorem find_font_first_existing_witness :
    (fun s => s == "b") "b" = true :=
  ((find_font_first_existing (fun s => s == "b")).1 ["a", "b"] "b" rfl).1

/-- Modelled from the spec: "point size equal to 0.65 × requested size
(rounded to nearest integer)", i.e. `⌊0.65 · size + 1/2⌋`. -/
def spec_font_size (size : Nat) : Nat := (65 * size + 50) / 100

/-- C4: for every size the driver requests (16, 48 and 128), the point size
passed to the font loader equals 0.65 × size rounded to the nearest
integer, and `generate_icon` loads the font at exactly that point size. -/
theorem font_size_is_rounded (size : Nat) (h : size ∈ SIZES) :
    font_size size = spec_font_size size
  ∧ ∀ (k : String) (tt : String → Nat → Option Font) (df : Font) (fp : String),
      generate_icon size k tt df fp =
        match tt fp (spec_font_size size) with
        | some font => (render_with_font size k font, [])
        | none => (render_with_font size k df, [font_warning (spec_font_size size)]) := by
  have he : font_size size = spec_font_size size := by
    simp only [SIZES, List.mem_cons, List.not_mem_nil, or_false] at h
    rcases h with rfl | rfl | rfl <;> rfl
  refine ⟨he, ?_⟩
  intro k tt df fp
  unfold generate_icon
  rw [he]

/-- C4 witness: at the requested size 48 the loaded point size is 31, which
is 31.2 rounded to the nearest integer. -/
theorem font_size_is_rounded_witness :
    font_size 48 = spec_font_size 48 ∧ font_size 48 = 31 :=
  ⟨(font_size_is_rounded 48 (by decide)).1, by decide⟩

lemma render_with_font_dims (size : Nat) (k : String) (font : Font) :
    (render_with_font size k font).width = size ∧
    (render_with_font size k font).height = size := by
  unfold render_with_font apply_mask draw_canvas draw_text base_canvas
  by_cases h : 48 ≤ size <;> simp [h]

/-- C6: for every size (in particular every positive one), and in both the
masked and unmasked branch, the produced image is exactly size × size. -/
theorem icon_dimensions (size : Nat) (k : String)
    (tt : String → Nat → Option Font) (df : Font) (fp : String) :
    (generate_icon size k tt df fp).1.width = size ∧
    (generate_icon size k tt df fp).1.height = size := by
  cases htt : tt fp (font_size size) with
  | none => simpa [generate_icon, htt] using render_with_font_dims size k df
  | some font => simpa [generate_icon, htt] using render_with_font_dims size k font

/-- C7: the top-left draw coordinates computed by `generate_icon` from a
measured bounding box `(l, t, r, b)` are
`((size − (r − l)) fdiv 2 − l, (size − (b − t)) fdiv 2 − t)`,
with floor division. -/
theorem center_xy_formula (size : Nat) (l t r b : Int) :
    center_xy size (l, t, r, b) =
      (Int.fdiv ((size : Int) - (r - l)) 2 - l,
       Int.fdiv ((size : Int) - (b - t)) 2 - t) := by
  rfl

/-! ### Alpha of the drawn canvas -/

lemma blend_alpha (c : Nat) (hc : c ≤ 255) : blend 255 255 c = 255 := by
  unfold blend
  have h : 255 * (255 - c) + 255 * c = 65025 := by omega
  rw [h]

lemma draw_canvas_alpha (size : Nat) (k : String) (font : Font) (x y : Nat) :
    ((draw_canvas size k font).pix x y).a = 255 := by
  simp only [draw_canvas, draw_text, base_canvas]
  exact blend_alpha _ (min_le_right _ _)

/-- C5: below size 48 the mask branch is not taken: `generate_icon` returns
the drawn canvas itself, and every pixel keeps the opaque background alpha
255. -/
theorem small_icon_unmasked (size : Nat) (h : size < 48) (k : String)
    (tt : String → Nat → Option Font) (df : Font) (fp : String) :
    (generate_icon size k tt df fp).1
        = draw_canvas size k ((tt fp (font_size size)).getD df)
  ∧ ∀ x y, (((generate_icon size k tt df fp).1).pix x y).a = 255 := by
  have hn : ¬ 48 ≤ size := by omega
  cases htt : tt fp (font_size size) with
  | none =>
      have hred : (generate_icon size k tt df fp).1 = draw_canvas size k df := by
        simp [generate_icon, htt, render_with_font, hn]
      refine ⟨by rw [hred]; simp, ?_⟩
      intro x y
      rw [hred]
      exact draw_canvas_alpha size k df x y
  | some font =>
      have hred : (generate_icon size k tt df fp).1 = draw_canvas size k font := by
        simp [generate_icon, htt, render_with_font, hn]
      refine ⟨by rw [hred]; simp, ?_⟩
      intro x y
      rw [hred]
      exact draw_canvas_alpha size k font x y

/-- A concrete opaque font used by the witnesses. -/
def f0 : Font := ⟨fun _ => (0, 0, 0, 0), fun _ _ _ => 0⟩

/-- C5 witness: at size 16 with a failing font loader, the pixel (0,0) of
the generated icon is fully opaque. -/
theorem small_icon_unmasked_witness :
    ((generate_icon 16 KANJI (fun _ _ => none) f0 "p").1.pix 0 0).a = 255 :=
  (small_icon_unmasked 16 (by decide) KANJI (fun _ _ => none) f0 "p").2 0 0

/-- C8: when `ImageFont.truetype` fails at the computed point size,
`generate_icon` still returns an image — the one rendered with the default
built-in font — and logs exactly the warning line. -/
theorem font_fallback_total (size : Nat) (k : String)
    (tt : String → Nat → Option Font) (df : Font) (fp : String)
    (h : tt fp (font_size size) = none) :
    generate_icon size k tt df fp
      = (render_with_font size k df, [font_warning (font_size size)]) := by
  simp [generate_icon, h]

/-- C8 witness: a loader that always fails still yields the default-font
rendering at size 16, with the warning for point size 10. -/
theorem font_fallback_total_witness :
    generate_icon 16 KANJI (fun _ _ => none) f0 "p"
      = (render_with_font 16 KANJI f0, [font_warning 10]) :=
  font_fallback_total 16 KANJI (fun _ _ => none) f0 "p" rfl

/-! ### Geometry of the rounded-rectangle region -/

/-- Modelled from the spec: the distance from a coordinate to the core
interval `[radius, size - 1 - radius]` of the rounded rectangle.  A point is
in the rounded-rectangle region exactly when these per-axis distances, as a
vector, have length at most `radius`. -/
def corner_dist (size radius : Nat) (t : Int) : Int :=
  if t < (radius : Int) then (radius : Int) - t
  else if ((size : Int) - 1 - (radius : Int)) < t then
    t - ((size : Int) - 1 - (radius : Int))
  else 0

/-- Modelled from the spec: the pixel lies outside the rounded-rectangle
region with the given corner radius. -/
def outside_rounded_region (size radius : Nat) (x y : Nat) : Prop :=
  ((radius : Int)) ^ 2 <
    (corner_dist size radius (x : Int)) ^ 2 + (corner_dist size radius (y : Int)) ^ 2

/-- Modelled from the spec: the pixel lies strictly inside the
rounded-rectangle region with the given corner radius. -/
def strictly_inside_rounded_region (size radius : Nat) (x y : Nat) : Prop :=
  (corner_dist size radius (x : Int)) ^ 2 + (corner_dist size radius (y : Int)) ^ 2 <
    ((radius : Int)) ^ 2

instance (size radius x y : Nat) : Decidable (outside_rounded_region size radius x y) := by
  unfold outside_rounded_region
  exact inferInstance

instance (size radius x y : Nat) :
    Decidable (strictly_inside_rounded_region size radius x y) := by
  unfold strictly_inside_rounded_region
  exact inferInstance

lemma corner_dist_left (size radius : Nat) {t : Int} (h : t < (radius : Int)) :
    corner_dist size radius t = (radius : Int) - t := by
  unfold corner_dist
  rw [if_pos h]

lemma corner_dist_right (size radius : Nat) {t : Int}
    (hsr : 2 * (radius : Int) + 1 ≤ (size : Int))
    (h : (size : Int) - 1 - (radius : Int) < t) :
    corner_dist size radius t = t - ((size : Int) - 1 - (radius : Int)) := by
  unfold corner_dist
  rw [if_neg (by omega), if_pos h]

lemma corner_dist_mid (size radius : Nat) {t : Int} (h1 : ¬ t < (radius : Int))
    (h2 : ¬ (size : Int) - 1 - (radius : Int) < t) :
    corner_dist size radius t = 0 := by
  unfold corner_dist
  rw [if_neg h1, if_neg h2]

lemma corner_dist_nonneg (size radius : Nat) (t : Int) :
    0 ≤ corner_dist size radius t := by
  unfold corner_dist
  split_ifs <;> omega

/-- Every pixel of the drawn mask is inside the closed rounded-rectangle
region. -/
lemma closed_of_mask (size radius x y : Nat) (hsr : 2 * radius + 1 ≤ size)
    (h : in_rounded_rect size radius x y) :
    (corner_dist size radius (x : Int)) ^ 2 + (corner_dist size radius (y : Int)) ^ 2
      ≤ ((radius : Int)) ^ 2 := by
  obtain ⟨hx1, hy1, htl, htr, hbl, hbr⟩ := h
  have hx0 : (0 : Int) ≤ (x : Int) := Int.natCast_nonneg x
  have hy0 : (0 : Int) ≤ (y : Int) := Int.natCast_nonneg y
  have hr0 : (0 : Int) ≤ (radius : Int) := Int.natCast_nonneg radius
  have hsr' : 2 * (radius : Int) + 1 ≤ (size : Int) := by exact_mod_cast hsr
  by_cases hc1 : (x : Int) < (radius : Int)
  · have ex : corner_dist size radius (x : Int) = (radius : Int) - x :=
      corner_dist_left size radius hc1
    by_cases hc3 : (y : Int) < (radius : Int)
    · have ey : corner_dist size radius (y : Int) = (radius : Int) - y :=
        corner_dist_left size radius hc3
      rw [ex, ey]
      nlinarith [htl hc1 hc3]
    · by_cases hc4 : (size : Int) - 1 - (radius : Int) < (y : Int)
      · have ey := corner_dist_right size radius hsr' hc4
        rw [ex, ey]
        nlinarith [hbl hc1 hc4]
      · have ey := corner_dist_mid size radius hc3 hc4
        rw [ex, ey]
        nlinarith [mul_nonneg hx0 (show (0 : Int) ≤ 2 * (radius : Int) - x by omega)]
  · by_cases hc2 : (size : Int) - 1 - (radius : Int) < (x : Int)
    · have ex := corner_dist_right size radius hsr' hc2
      by_cases hc3 : (y : Int) < (radius : Int)
      · have ey := corner_dist_left size radius hc3
        rw [ex, ey]
        nlinarith [htr hc2 hc3]
      · by_cases hc4 : (size : Int) - 1 - (radius : Int) < (y : Int)
        · have ey := corner_dist_right size radius hsr' hc4
          rw [ex, ey]
          nlinarith [hbr hc2 hc4]
        · have ey := corner_dist_mid size radius hc3 hc4
          rw [ex, ey]
          nlinarith [mul_nonneg (show (0 : Int) ≤ (size : Int) - 1 - x by omega)
            (show (0 : Int) ≤ (size : Int) - 1 + x - 2 * ((size : Int) - 1 - radius) by omega)]
    · have ex := corner_dist_mid size radius hc1 hc2
      by_cases hc3 : (y : Int) < (radius : Int)
      · have ey := corner_dist_left size radius hc3
        rw [ex, ey]
        nlinarith [mul_nonneg hy0 (show (0 : Int) ≤ 2 * (radius : Int) - y by omega)]
      · by_cases hc4 : (size : Int) - 1 - (radius : Int) < (y : Int)
        · have ey := corner_dist_right size radius hsr' hc4
          rw [ex, ey]
          nlinarith [mul_nonneg (show (0 : Int) ≤ (size : Int) - 1 - y by omega)
            (show (0 : Int) ≤ (size : Int) - 1 + y - 2 * ((size : Int) - 1 - radius) by omega)]
        · have ey := corner_dist_mid size radius hc3 hc4
          rw [ex, ey]
          positivity

/-- Every pixel strictly inside the rounded-rectangle region is a pixel of
the drawn mask. -/
lemma mask_of_strict (size radius x y : Nat) (hsr : 2 * radius + 1 ≤ size)
    (h : (corner_dist size radius (x : Int)) ^ 2 +
           (corner_dist size radius (y : Int)) ^ 2 < ((radius : Int)) ^ 2) :
    in_rounded_rect size radius x y := by
  have hx0 : (0 : Int) ≤ (x : Int) := Int.natCast_nonneg x
  have hy0 : (0 : Int) ≤ (y : Int) := Int.natCast_nonneg y
  have hr0 : (0 : Int) ≤ (radius : Int) := Int.natCast_nonneg radius
  have hsr' : 2 * (radius : Int) + 1 ≤ (size : Int) := by exact_mod_cast hsr
  have hdx0 := corner_dist_nonneg size radius (x : Int)
  have hdy0 := corner_dist_nonneg size radius (y : Int)
  have hdx : corner_dist size radius (x : Int) < (radius : Int) := by
    nlinarith [sq_nonneg (corner_dist size radius (y : Int))]
  have hdy : corner_dist size radius (y : Int) < (radius : Int) := by
    nlinarith [sq_nonneg (corner_dist size radius (x : Int))]
  have hx1 : (x : Int) ≤ (size : Int) - 1 := by
    by_cases hc : (size : Int) - 1 - (radius : Int) < (x : Int)
    · rw [corner_dist_right size radius hsr' hc] at hdx; omega
    · omega
  have hy1 : (y : Int) ≤ (size : Int) - 1 := by
    by_cases hc : (size : Int) - 1 - (radius : Int) < (y : Int)
    · rw [corner_dist_right size radius hsr' hc] at hdy; omega
    · omega
  refine ⟨hx1, hy1, ?_, ?_, ?_, ?_⟩
  · intro hcx hcy
    rw [corner_dist_left size radius hcx, corner_dist_left size radius hcy] at h
    nlinarith [h]
  · intro hcx hcy
    rw [corner_dist_right size radius hsr' hcx, corner_dist_left size radius hcy] at h
    nlinarith [h]
  · intro hcx hcy
    rw [corner_dist_left size radius hcx, corner_dist_right size radius hsr' hcy] at h
    nlinarith [h]
  · intro hcx hcy
    rw [corner_dist_right size radius hsr' hcx, corner_dist_right size radius hsr' hcy] at h
    nlinarith [h]

lemma apply_mask_alpha (size : Nat) (hsr : 2 * (size / 6) + 1 ≤ size)
    (img : Img) (himg : ∀ x y, (img.pix x y).a = 255) (x y : Nat) :
    (outside_rounded_region size (size / 6) x y →
        ((apply_mask size img).pix x y).a = 0)
  ∧ (strictly_inside_rounded_region size (size / 6) x y →
        ((apply_mask size img).pix x y).a = 255) := by
  constructor
  · intro hout
    have hnot : ¬ in_rounded_rect size (size / 6) x y := by
      intro hin
      have := closed_of_mask size (size / 6) x y hsr hin
      unfold outside_rounded_region at hout
      omega
    simp only [apply_mask, if_neg hnot]
  · intro hin
    have hmem : in_rounded_rect size (size / 6) x y :=
      mask_of_strict size (size / 6) x y hsr hin
    simp only [apply_mask, if_pos hmem]
    exact himg x y

/-- C1: for size ≥ 48 the icon is clipped by the rounded-rectangle mask of
corner radius `size / 6`: every pixel outside the region is fully
transparent, and every pixel strictly inside keeps the background alpha
255. -/
theorem rounded_mask_alpha (size : Nat) (h48 : 48 ≤ size) (k : String)
    (tt : String → Nat → Option Font) (df : Font) (fp : String) (x y : Nat) :
    (outside_rounded_region size (size / 6) x y →
        (((generate_icon size k tt df fp).1).pix x y).a = 0)
  ∧ (strictly_inside_rounded_region size (size / 6) x y →
        (((generate_icon size k tt df fp).1).pix x y).a = 255) := by
  have hsr : 2 * (size / 6) + 1 ≤ size := by omega
  cases htt : tt fp (font_size size) with
  | none =>
      have hred : (generate_icon size k tt df fp).1
          = apply_mask size (draw_canvas size k df) := by
        simp [generate_icon, htt, render_with_font, h48]
      rw [hred]
      exact apply_mask_alpha size hsr (draw_canvas size k df)
        (draw_canvas_alpha size k df) x y
  | some font =>
      have hred : (generate_icon size k tt df fp).1
          = apply_mask size (draw_canvas size k font) := by
        simp [generate_icon, htt, render_with_font, h48]
      rw [hred]
      exact apply_mask_alpha size hsr (draw_canvas size k font)
        (draw_canvas_alpha size k font) x y

/-- C1 witness: at size 48 (radius 8), the corner pixel (0,0) is outside the
region and transparent, while the centre pixel (24,24) is strictly inside
and opaque. -/
theorem rounded_mask_alpha_witness :
    ((generate_icon 48 KANJI (fun _ _ => none) f0 "p").1.pix 0 0).a = 0
  ∧ ((generate_icon 48 KANJI (fun _ _ => none) f0 "p").1.pix 24 24).a = 255 :=
  ⟨(rounded_mask_alpha 48 (by decide) KANJI (fun _ _ => none) f0 "p" 0 0).1
      (by decide),
   (rounded_mask_alpha 48 (by decide) KANJI (fun _ _ => none) f0 "p" 24 24).2
      (by decide)⟩

/-! ### Lemmas about the driver -/

lemma mem_makedirs (d : String) (fs : FS) : d ∈ (makedirs d fs).dirs := by
  unfold makedirs
  by_cases h : d ∈ fs.dirs
  · simp only [if_pos h]; exact h
  · simp [h]

lemma makedirs_of_mem {d : String} {fs : FS} (h : d ∈ fs.dirs) :
    makedirs d fs = fs := by
  unfold makedirs
  rw [if_pos h]

lemma run_none (env : Env) (fs : FS)
    (h : find_first_existing env.ex font_paths = none) :
    run env fs = (1, makedirs (OUTPUT_DIR env.scriptDir) fs) := by
  simp [run, find_font, h]

lemma run_some (env : Env) (fs : FS) (fp : String)
    (h : find_first_existing env.ex font_paths = some fp) :
    run env fs =
      (0, save_file (icon_path env.scriptDir 128)
            (generate_icon 128 KANJI env.truetype env.default_font fp).1
            (save_file (icon_path env.scriptDir 48)
              (generate_icon 48 KANJI env.truetype env.default_font fp).1
              (save_file (icon_path env.scriptDir 16)
                (generate_icon 16 KANJI env.truetype env.default_font fp).1
                (makedirs (OUTPUT_DIR env.scriptDir) fs)))) := by
  simp [run, find_font, h, SIZES]

lemma append_ne_append_right (s : String) {a b : String} (h : a ≠ b) :
    s ++ a ≠ s ++ b := by
  intro he
  apply h
  have hd := congrArg String.data he
  rw [String.data_append, String.data_append] at hd
  exact String.ext (List.append_cancel_left hd)

lemma icon_path_ne (sd : String) (m n : Nat)
    (h : ("icon" ++ toString m ++ ".png" : String) ≠ "icon" ++ toString n ++ ".png") :
    icon_path sd m ≠ icon_path sd n := by
  unfold icon_path
  exact append_ne_append_right _ h

/-- C3: when no candidate font path exists the run exits with status 1 and
leaves the file map untouched; when a font is found the run exits with
status 0, the file at `icon<size>.png` for each size in {16, 48, 128} is
the generated icon, and no other file changes. -/
theorem main_exit_and_files (env : Env) (fs : FS) :
    ((∀ p ∈ font_paths, env.ex p = false) →
        (run env fs).1 = 1 ∧ (run env fs).2.files = fs.files)
  ∧ (∀ fp, find_first_existing env.ex font_paths = some fp →
        (run env fs).1 = 0 ∧
        (∀ size ∈ SIZES, (run env fs).2.files (icon_path env.scriptDir size)
            = some (generate_icon size KANJI env.truetype env.default_font fp).1) ∧
        (∀ q, (∀ size ∈ SIZES, q ≠ icon_path env.scriptDir size) →
            (run env fs).2.files q = fs.files q)) := by
  constructor
  · intro hall
    have hn : find_first_existing env.ex font_paths = none :=
      (find_first_existing_eq_none_iff env.ex font_paths).mpr hall
    rw [run_none env fs hn]
    exact ⟨rfl, rfl⟩
  · intro fp h
    rw [run_some env fs fp h]
    refine ⟨rfl, ?_, ?_⟩
    · intro size hsz
      have hsz3 : size = 16 ∨ size = 48 ∨ size = 128 := by simpa [SIZES] using hsz
      rcases hsz3 with rfl | rfl | rfl
      · have h1 : icon_path env.scriptDir 16 ≠ icon_path env.scriptDir 128 :=
          icon_path_ne _ 16 128 (by decide)
        have h2 : icon_path env.scriptDir 16 ≠ icon_path env.scriptDir 48 :=
          icon_path_ne _ 16 48 (by decide)
        simp [save_file, h1, h2]
      · have h1 : icon_path env.scriptDir 48 ≠ icon_path env.scriptDir 128 :=
          icon_path_ne _ 48 128 (by decide)
        simp [save_file, h1]
      · simp [save_file]
    · intro q hq
      have h16 := hq 16 (by simp [SIZES])
      have h48 := hq 48 (by simp [SIZES])
      have h128 := hq 128 (by simp [SIZES])
      simp [save_file, makedirs, h16, h48, h128]

/-- A failing environment and an empty filesystem, used by the witnesses. -/
def env0 : Env := ⟨fun _ => false, fun _ _ => none, f0, "s"⟩

/-- An empty filesystem state, used by the witnesses. -/
def fs0 : FS := ⟨[], fun _ => none⟩

/-- C3 witness: with no existing font path the run exits with status 1. -/
theorem main_exit_and_files_witness : (run env0 fs0).1 = 1 :=
  ((main_exit_and_files env0 fs0).1 (fun _ _ => rfl)).1

/-- C10: the driver creates the output directory before the font search, so
after every run — in particular a failed one, which exits with status 1 and
writes nothing — the output directory is present. -/
theorem outdir_exists_after_run (env : Env) (fs : FS) :
    OUTPUT_DIR env.scriptDir ∈ (run env fs).2.dirs
  ∧ ((run env fs).1 = 1 → (run env fs).2.files = fs.files) := by
  cases hf : find_first_existing env.ex font_paths with
  | none =>
      rw [run_none env fs hf]
      exact ⟨mem_makedirs _ fs, fun _ => rfl⟩
  | some fp =>
      rw [run_some env fs fp hf]
      refine ⟨?_, ?_⟩
      · exact mem_makedirs _ fs
      · intro h
        simp at h

/-- C10 witness: a run that finds no font still has the output directory in
its final state and leaves the files untouched. -/
theorem outdir_exists_after_run_witness :
    OUTPUT_DIR "s" ∈ (run env0 fs0).2.dirs ∧ (run env0 fs0).2.files = fs0.files :=
  ⟨(outdir_exists_after_run env0 fs0).1, (outdir_exists_after_run env0 fs0).2 rfl⟩

/-- C9: the run is deterministic and idempotent: re-running in the state a
first run produced gives the same exit code and the identical filesystem
state — each `icon<size>.png` is overwritten with the pixel-identical
image. -/
theorem run_idempotent (env : Env) (fs : FS) :
    run env (run env fs).2 = run env fs := by
  cases hf : find_first_existing env.ex font_paths with
  | none =>
      rw [run_none env fs hf]
      have h2 := run_none env (makedirs (OUTPUT_DIR env.scriptDir) fs) hf
      rw [show ((1 : Nat), makedirs (OUTPUT_DIR env.scriptDir) fs).2
            = makedirs (OUTPUT_DIR env.scriptDir) fs from rfl, h2,
          makedirs_of_mem (mem_makedirs _ fs)]
  | some fp =>
      have h1 := run_some env fs fp hf
      rw [h1]
      set X := save_file (icon_path env.scriptDir 128)
            (generate_icon 128 KANJI env.truetype env.default_font fp).1
            (save_file (icon_path env.scriptDir 48)
              (generate_icon 48 KANJI env.truetype env.default_font fp).1
              (save_file (icon_path env.scriptDir 16)
                (generate_icon 16 KANJI env.truetype env.default_font fp).1
                (makedirs (OUTPUT_DIR env.scriptDir) fs))) with hX
      have hmem : OUTPUT_DIR env.scriptDir ∈ X.dirs := by
        rw [hX]
        exact mem_makedirs _ fs
      have h2 := run_some env X fp hf
      rw [show ((0 : Nat), X).2 = X from rfl, h2, makedirs_of_mem hmem]
      refine congrArg (Prod.mk 0) ?_
      refine FS.ext ?_ ?_
      · simp [save_file]
      · funext q
        by_cases h128 : q = icon_path env.scriptDir 128
        · simp [save_file, hX, h128]
        · by_cases h48 : q = icon_path env.scriptDir 48
          · simp [save_file, hX, h128, h48]
          · by_cases h16 : q = icon_path env.scriptDir 16
            · simp [save_file, hX, h128, h48, h16]
            · simp [save_file, hX, h128, h48, h16]
